import Mathlib

/-!
Shallow embedding of the metadata reconciliation engine of
`src/instagram_scraper.py` (class `InstagramScraper`), for checking the
natural-language specification against the code.

Conventions of the embedding:
* pandas timestamps are modelled as `Int` (epoch seconds); `pd.NaT`/`None`
  cells are `Option.none`;
* a `pd.DataFrame` of post rows is a `List PostRecord` (insertion order kept,
  exactly as `pd.concat(..., ignore_index=True)` keeps it);
* Python exceptions that escape a method are `Except`/`Option` failures;
* Google Cloud Storage is a list of blob names: `blob.exists()` is list
  membership, `list_blobs(prefix=p)` is a filter on the name prefix.
-/

set_option maxRecDepth 100000

namespace ShopAssist

/-- One row of the metadata DataFrame built by
`InstagramScraper.extract_post_metadata` (src/instagram_scraper.py lines
384-403) and by `verify_metadata_integrity` (lines 1024-1041).
`ai_analysis_results` is `none` when the cell holds a pandas NA and
`some m` when it holds a dict, modelled as an association list. -/
structure PostRecord where
  username : String
  post_id : String
  caption : String
  timestamp : Option Int
  media_type : String
  like_count : Int
  comment_count : Int
  media_urls : List String
  media_processed : Bool
  media_processed_urls : List String
  media_processed_timestamp : Option Int
  media_processed_error : Option String
  gcs_location : String
  ai_content_description : String
  ai_processed_time : Option Int
  ai_analysis_results : Option (List (String × String))
  deriving Repr, DecidableEq

/-- A `taken_at_utc` / `taken_at` field of a raw API post: a Python int, a
string, or a value of some other type (only its truthiness matters then,
since `isinstance(field_value, (int, str))` fails on it). -/
inductive TimeField where
  | int (n : Int)
  | str (s : String)
  | other (truthy : Bool)
  deriving Repr, DecidableEq

/-- The raw `media_type` field of an API post: int, string, or other
(src/instagram_scraper.py lines 274-292). -/
inductive RawMediaType where
  | int (n : Int)
  | str (s : String)
  | other
  deriving Repr, DecidableEq

/-- The `caption` field: a dict (with an optional `text` key), a non-dict
scalar (rendered with `str(...)`), or absent (`post.get("caption", {})`
yields an empty dict, so absent behaves as a dict without `text`). -/
inductive CaptionData where
  | dict (text : Option String)
  | scalar (s : String)
  | absent
  deriving Repr, DecidableEq

/-- The `image_versions` field of a carousel item, which the code probes
for both the old shape (a list of dicts) and the new shape (a dict with an
`items` list); each entry is an optional `url` (src lines 303-320). -/
inductive ImageVersions where
  | list (vs : List (Option String))
  | dict (items : List (Option String))
  deriving Repr, DecidableEq

/-- One entry of `carousel_media` (src lines 296-334). -/
structure CarouselItem where
  is_video : Bool
  video_url : Option String
  thumbnail_url : Option String
  image_versions : Option ImageVersions
  deriving Repr, DecidableEq

/-- A raw post as returned by the scraping API, restricted to the fields
`extract_post_metadata` reads. `image_versions2` holds the `candidates`
list (each with an optional `url`); `video_versions` holds the per-version
optional `url`s. -/
structure RawPost where
  code : String
  caption : CaptionData
  taken_at_utc : Option TimeField
  taken_at : Option TimeField
  media_type : Option RawMediaType
  is_video : Bool
  video_versions : List (Option String)
  video_url : Option String
  carousel_media : List CarouselItem
  image_versions2 : Option (List (Option String))
  image_versions : Option (List (Option String))
  thumbnail_url : Option String
  display_url : Option String
  like_count : Int
  comment_count : Int
  deriving Repr, DecidableEq

/-- Python `str.split(sep)` with a non-empty separator, on character
lists; the fuel argument (the input length) makes the recursion
structural. Scans left to right, non-overlapping, keeping empty pieces,
exactly as CPython does. -/
def splitChars (sep : List Char) : Nat → List Char → List Char →
    List (List Char)
  | _, [], acc => [acc.reverse]
  | 0, rest, acc => [acc.reverse ++ rest]
  | fuel + 1, c :: rest, acc =>
    if sep.isPrefixOf (c :: rest) then
      acc.reverse :: splitChars sep fuel ((c :: rest).drop sep.length) []
    else
      splitChars sep fuel rest (c :: acc)

/-- Python `s.split(sep)` for a non-empty `sep` (all separators in this
code are the literals `"/"`, `"__"`, `"?"`, `"."`). -/
def pySplit (s sep : String) : List String :=
  (splitChars sep.data s.data.length s.data []).map String.mk

/-- Python `s.startswith(pre)`. -/
def pyStartsWith (s pre : String) : Bool :=
  pre.data.isPrefixOf s.data

/-- Digit run of Python `int(s)`: all remaining characters must be ASCII
digits. -/
def digitsToNat : List Char → Nat → Option Nat
  | [], acc => some acc
  | c :: cs, acc =>
    if c.isDigit then digitsToNat cs (acc * 10 + (c.toNat - '0'.toNat))
    else none

/-- Python `int(s)` on a string, as used for timestamps and media types;
returns `none` where CPython raises `ValueError`: empty string, bare
sign, or any non-digit character. (Leading/trailing whitespace and digit
underscores, which CPython tolerates, are not modelled; no claim depends
on them.) -/
def pyParseInt (s : String) : Option Int :=
  match s.data with
  | [] => none
  | '-' :: cs =>
    match cs with
    | [] => none
    | _ => (digitsToNat cs 0).map (fun n => -(n : Int))
  | '+' :: cs =>
    match cs with
    | [] => none
    | _ => (digitsToNat cs 0).map (fun n => (n : Int))
  | cs => (digitsToNat cs 0).map (fun n => (n : Int))

/-- One iteration of the timestamp loop (src lines 231-245): the field is
used only when it is truthy, is an int or a str, and converts; otherwise
the loop moves on. `int 0` and `str ""` are falsy; a non-numeric string
raises inside the `try` and is swallowed by the `continue`. -/
def tryTimeField : Option TimeField → Option Int
  | none => none
  | some (.int n) => if n = 0 then none else some n
  | some (.str s) => if s = "" then none else pyParseInt s
  | some (.other _) => none

/-- Timestamp resolution policy of `extract_post_metadata`
(src lines 226-271): `taken_at_utc`, then `taken_at`, then the timestamp
of the first prior record with the same `post_id` when it is non-NA, then
the current wall clock `now`. -/
def resolveTimestamp (p : RawPost) (existing : Option (List PostRecord))
    (now : Int) : Int :=
  match tryTimeField p.taken_at_utc with
  | some t => t
  | none =>
    match tryTimeField p.taken_at with
    | some t => t
    | none =>
      match existing with
      | none => now
      | some em =>
        match em.find? (fun r => r.post_id = p.code) with
        | none => now
        | some r =>
          match r.timestamp with
          | some t => t
          | none => now

/-- `self.media_type_map = {1: "post", 2: "reel", 8: "album"}` with the
`.get(type_key, "post")` default (src lines 96 and 282-284). -/
def mediaTypeMap (n : Int) : String :=
  if n = 1 then "post" else if n = 2 then "reel"
  else if n = 8 then "album" else "post"

/-- Media-type resolution (src lines 273-292). An int value goes through
the map with default `"post"`. A string value is passed to `int(...)`,
which raises `ValueError` on a non-numeric string; that exception is not
caught anywhere in `extract_post_metadata`, so the whole call fails
(`Except.error ()`). A missing or non-int/str value falls back to the
`is_video` / `video_versions` / `carousel_media` duck-typing branch. -/
def resolveMediaType (p : RawPost) : Except Unit String :=
  match p.media_type with
  | some (.int n) => .ok (mediaTypeMap n)
  | some (.str s) =>
    match pyParseInt s with
    | some n => .ok (mediaTypeMap n)
    | none => .error ()
  | _ =>
    .ok (if p.is_video || !p.video_versions.isEmpty then "reel"
         else if !p.carousel_media.isEmpty then "album"
         else "post")

/-- Caption extraction (src lines 215-224): a dict yields
`caption_data.get("text", "")`; any other value is `str(caption_data)`;
`post.get("caption", {})` makes an absent caption an empty dict. -/
def captionText (c : CaptionData) : String :=
  match c with
  | .dict t => t.getD ""
  | .scalar s => s
  | .absent => ""

/-- URL of one album carousel item (src lines 297-334). The `[0]` indexing
on an empty `image_versions` list raises `IndexError`, which the inner
`except Exception ... continue` swallows, skipping the item; that and an
empty resolved url both yield `none` (the `if url:` guard). -/
def carouselItemUrl (item : CarouselItem) : Option String :=
  let url : Option String :=
    if item.is_video then
      -- `item.get("video_url") or item.get("thumbnail_url", "")`
      match item.video_url with
      | some u => if u = "" then some (item.thumbnail_url.getD "") else some u
      | none => some (item.thumbnail_url.getD "")
    else
      match item.image_versions with
      | some (.list vs) =>
        match vs with
        | [] => none            -- IndexError, caught by the inner except
        | v :: _ => some (v.getD "")
      | some (.dict items) =>
        match items with
        | [] => none            -- IndexError, caught by the inner except
        | v :: _ => some (v.getD "")
      | none => some (item.thumbnail_url.getD "")
  match url with
  | some u => if u = "" then none else some u
  | none => none

/-- Media-URL extraction for the resolved media type (src lines 294-361).
For a single post, `post["image_versions2"].get("candidates", [{}])[0]`
raises `IndexError` when the `candidates` list is present but empty; that
exception is not caught, so the whole extraction fails. -/
def extractMediaUrls (p : RawPost) (mt : String) : Except Unit (List String) :=
  if mt = "album" && !p.carousel_media.isEmpty then
    .ok (p.carousel_media.filterMap carouselItemUrl)
  else if mt = "reel" then
    match p.video_versions with
    | v :: _ =>
      let u := v.getD ""
      .ok (if u = "" then [] else [u])
    | [] =>
      match p.video_url with
      | some u => .ok (if u = "" then [] else [u])
      | none => .ok []
  else if mt = "album" then
    -- `media_type == "album"` but `carousel_media` missing/empty: every
    -- branch of lines 296-361 is skipped except the final single-post one.
    singleUrl p
  else
    singleUrl p
where
  /-- The single-post branch (src lines 343-361). -/
  singleUrl (p : RawPost) : Except Unit (List String) :=
    let url : Except Unit String :=
      match p.image_versions2 with
      | some cands =>
        match cands with
        | [] => .error ()       -- IndexError, uncaught
        | c :: _ => .ok (c.getD "")
      | none =>
        match p.image_versions with
        | some items =>
          match items with
          | [] => .error ()     -- IndexError, uncaught
          | c :: _ => .ok (c.getD "")
        | none =>
          match p.thumbnail_url with
          | some u => .ok u
          | none => .ok (p.display_url.getD "")
    match url with
    | .ok u => .ok (if u = "" then [] else [u])
    | .error e => .error e

/-- `storage_location` derivation (src lines 371-381): albums get a
directory prefix `post__{post_id}__album`; other types get
`post__{post_id}__{media_type}.{ext}` where `ext` is the last
`.`-component of the first URL stripped of its query string, or `""` (and
then an empty location) when there are no URLs. -/
def mkGcsLocation (username post_id mt : String) (urls : List String) : String :=
  let base := "instagram/" ++ username ++ "/media"
  if mt = "album" then
    base ++ "/post__" ++ post_id ++ "__album"
  else
    match urls with
    | [] => ""
    | u :: _ =>
      let ext := ((pySplit ((pySplit u "?").headD "") ".").getLastD "")
      if ext = "" then ""
      else base ++ "/post__" ++ post_id ++ "__" ++ mt ++ "." ++ ext

/-- Normalization of one raw post into a candidate record
(src lines 205-404). The enrichment group starts pending:
`ai_content_description = ""`, `ai_processed_time = None`,
`ai_analysis_results = {"status": "pending"}`. -/
def normalizePost (username : String) (now : Int)
    (existing : Option (List PostRecord)) (p : RawPost) :
    Except Unit PostRecord :=
  match resolveMediaType p with
  | .error e => .error e
  | .ok mt =>
    match extractMediaUrls p mt with
    | .error e => .error e
    | .ok urls =>
      .ok
        { username := username
          post_id := p.code
          caption := captionText p.caption
          timestamp := some (resolveTimestamp p existing now)
          media_type := mt
          like_count := p.like_count
          comment_count := p.comment_count
          media_urls := urls
          media_processed := false
          media_processed_urls := []
          media_processed_timestamp := none
          media_processed_error := none
          gcs_location := mkGcsLocation username p.code mt urls
          ai_content_description := ""
          ai_processed_time := none
          ai_analysis_results := some [("status", "pending")] }

/-- Normalize a whole fetch batch; the first uncaught per-post exception
aborts the call, as in Python. -/
def normalizeAll (username : String) (now : Int)
    (existing : Option (List PostRecord)) :
    List RawPost → Except Unit (List PostRecord)
  | [] => .ok []
  | p :: ps =>
    match normalizePost username now existing p with
    | .error e => .error e
    | .ok c =>
      match normalizeAll username now existing ps with
      | .error e => .error e
      | .ok cs => .ok (c :: cs)

/-- The `new_metadata_lookup` dict (src lines 466-468): a dict
comprehension keyed by `post_id`, so a later candidate with the same id
overwrites an earlier one — lookup returns the last match. -/
def lookupLast (cands : List PostRecord) (pid : String) : Option PostRecord :=
  cands.reverse.find? (fun c => c.post_id = pid)

/-- The timestamp backfill applied to one prior row (src lines 471-479):
when the batch re-reports the row's `post_id` and the candidate's
timestamp is truthy (`pd.NaT` is falsy, a real `pd.Timestamp` is truthy),
only the `timestamp` field of the prior row is overwritten. -/
def patchTimestamp (cands : List PostRecord) (r : PostRecord) : PostRecord :=
  match lookupLast cands r.post_id with
  | some c => if c.timestamp.isSome then { r with timestamp := c.timestamp } else r
  | none => r

/-- The `ai_analysis_results` normalization applied after a merge with a
prior set (src lines 498-504): a NA cell becomes the empty dict, a dict
cell is kept unchanged. -/
def normResults (r : PostRecord) : PostRecord :=
  { r with ai_analysis_results := some (r.ai_analysis_results.getD []) }

/-- The merge step of `extract_post_metadata` (src lines 464-506) on
already-normalized candidates: with no prior set the candidates are the
result; otherwise prior rows get the timestamp backfill, candidates whose
`post_id` is absent from the prior set are appended, and the
`ai_analysis_results` column is normalized. -/
def mergeCandidates (existing : Option (List PostRecord))
    (cands : List PostRecord) : List PostRecord :=
  match existing with
  | none => cands
  | some em =>
    let patched := em.map (patchTimestamp cands)
    let newPosts := cands.filter
      (fun c => !(em.any (fun r => r.post_id = c.post_id)))
    (patched ++ newPosts).map normResults

/-- `InstagramScraper.extract_post_metadata` (src lines 197-506): the
Merge Engine. `now` is the wall clock read by `pd.Timestamp.now()`. -/
def extract_post_metadata (posts : List RawPost) (username : String)
    (existing : Option (List PostRecord)) (now : Int) :
    Except Unit (List PostRecord) :=
  match normalizeAll username now existing posts with
  | .error e => .error e
  | .ok cands => .ok (mergeCandidates existing cands)

/-! ### Integrity Auditor (`InstagramScraper.verify_metadata_integrity`) -/

/-- Object storage, as seen through `CloudStorageHandler`: the list of
blob names. `blob_exists` is membership; `list_blobs(prefix=p)` filters
on the prefix. -/
abbrev Storage := List String

/-- `blob_exists` (src lines 53-56). -/
def blobExists (S : Storage) (name : String) : Bool :=
  S.contains name

/-- `list_blobs(prefix=p)` (src lines 58-67). -/
def listBlobs (S : Storage) (prefix_ : String) : List String :=
  S.filter (fun b => pyStartsWith b prefix_)

/-- The missing-media check for one record (src lines 937-967): a record
with an empty `gcs_location`, an album record with no blob under
`gcs_location + "/"`, or a non-album record whose blob does not exist, is
collected as missing. -/
def recordMissing (S : Storage) (r : PostRecord) : Bool :=
  if r.gcs_location = "" then true
  else if r.media_type = "album" then
    (listBlobs S (r.gcs_location ++ "/")).isEmpty
  else
    !(blobExists S r.gcs_location)

/-- The `missing_post_ids` list (src lines 969-972). -/
def missingPostIds (S : Storage) (rs : List PostRecord) : List String :=
  (rs.filter (recordMissing S)).map (fun r => r.post_id)

/-- The removal `metadata_df[~metadata_df["post_id"].isin(missing_post_ids)]`
(src lines 974-978); with no missing files the frame is left as-is, which
the unconditional filter also yields. -/
def removeMissing (S : Storage) (rs : List PostRecord) : List PostRecord :=
  rs.filter (fun r => !((missingPostIds S rs).contains r.post_id))

/-- The media root listing `list_blobs(prefix=f"{base_cloud_path}/")`
(src lines 983-990). -/
def mediaFiles (S : Storage) (username : String) : List String :=
  listBlobs S ("instagram/" ++ username ++ "/media/")

/-- `parts[-1]` of `file_path.split("/")`; `pySplit` never returns `[]`,
so the default is never used. -/
def basenameOf (f : String) : String :=
  (pySplit f "/").getLastD ""

/-- `filename.split("__")[1]` (src lines 1006 and 1020); under the
`startswith("post__")` guard the split always has a second component. -/
def filePostId (f : String) : String :=
  ((pySplit (basenameOf f) "__").getD 1 "")

/-- `filename.split("__")[2].split(".")[0]` (src line 1021): `none` models
the uncaught `IndexError` when the filename has no third `__`-segment. -/
def fileMediaType (f : String) : Option String :=
  match (pySplit (basenameOf f) "__").get? 2 with
  | none => none
  | some seg => some ((pySplit seg ".").headD "")

/-- The unreferenced-media collection pass (src lines 994-1009): a listed
object is flagged exactly when its path has at least four `/`-components,
its basename starts with `post__`, and the embedded `post_id` is absent
from the (already pruned) record set. -/
def unreferencedFiles (S : Storage) (username : String)
    (rs : List PostRecord) : List String :=
  (mediaFiles S username).filter (fun f =>
    decide ((pySplit f "/").length ≥ 4) &&
    pyStartsWith (basenameOf f) "post__" &&
    !(rs.any (fun r => r.post_id = filePostId f)))

/-- The placeholder record synthesized for one unreferenced file
(src lines 1024-1041): empty descriptive fields, `timestamp = now`,
pending enrichment, `gcs_location` the file's own path. `none` models the
uncaught `IndexError` of the media-type parse, which aborts the whole
verification. -/
def mkPlaceholder (username : String) (now : Int) (f : String) :
    Option PostRecord :=
  (fileMediaType f).map (fun mt =>
    { username := username
      post_id := filePostId f
      caption := ""
      timestamp := some now
      media_type := mt
      like_count := 0
      comment_count := 0
      media_urls := []
      media_processed := false
      media_processed_urls := []
      media_processed_timestamp := none
      media_processed_error := none
      gcs_location := f
      ai_content_description := ""
      ai_processed_time := none
      ai_analysis_results := some [("status", "pending")] })

/-- The placeholder-admission loop (src lines 1012-1047): one record per
unreferenced file, in listing order; the first `IndexError` of the
media-type parse aborts the whole verification (`none`). -/
def placeholdersFor (username : String) (now : Int) :
    List String → Option (List PostRecord)
  | [] => some []
  | f :: fs =>
    match mkPlaceholder username now f with
    | none => none
    | some r =>
      match placeholdersFor username now fs with
      | none => none
      | some rs => some (r :: rs)

/-- `InstagramScraper.verify_metadata_integrity` (src lines 909-1060) as a
function of the storage listing and the downloaded snapshot. Returns
`none` when the method returns `None` without writing (empty/missing
snapshot, or an exception such as the placeholder `IndexError`); otherwise
`some (rs', wrote)` where `wrote` records whether the updated snapshot was
uploaded (src lines 1049-1054: exactly when either pass found something). -/
def verify_metadata_integrity (S : Storage) (username : String)
    (rs : List PostRecord) (now : Int) : Option (List PostRecord × Bool) :=
  if rs.isEmpty then none
  else
    let missingIds := missingPostIds S rs
    let rs1 := removeMissing S rs
    let unref := unreferencedFiles S username rs1
    match placeholdersFor username now unref with
    | none => none
    | some placeholders =>
      some (rs1 ++ placeholders, !missingIds.isEmpty || !unref.isEmpty)

/-- Whether a run of the auditor performs a persistence write: a failed
run (`None` return) writes nothing. -/
def auditWrote (S : Storage) (username : String) (rs : List PostRecord)
    (now : Int) : Bool :=
  match verify_metadata_integrity S username rs now with
  | none => false
  | some (_, w) => w

/-! ### Persistence Round-trip Adapter
(`CloudStorageHandler.upload_dataframe` / `download_dataframe`) -/

/-- A DataFrame cell of the snapshot schema, tagged with its Python type:
a string, a Python `None`/NA, a Python `list` of strings (e.g.
`media_urls`), a NumPy `ndarray` of strings, or a dict (e.g.
`ai_analysis_results`). -/
inductive PyVal where
  | str (s : String)
  | pyNone
  | list (xs : List String)
  | array (xs : List String)
  | dict (m : List (String × String))
  deriving Repr, DecidableEq

/-- Modelled from the spec: the serializer of the Persistence Round-trip
Adapter — `df.to_parquet` / `pd.read_parquet` inside
`CloudStorageHandler.upload_dataframe` and `download_dataframe`
(src/instagram_scraper.py lines 30-51) — is the pandas/pyarrow library,
which is not part of this repository. Its observable cell-level behavior
is modelled here: strings, nulls (kept distinct from `""`) and dict cells
round-trip, while a Python `list` cell deserializes as a NumPy `ndarray`
with the same elements in the same order. The last fact is witnessed by
the repository's own post-download compensation code, which everywhere
expects `np.ndarray` where a list was uploaded:
src/instagram_scraper.py lines 425-434 ("Convert any remaining NumPy
arrays to Python lists"), 437-443, 451-462, 703-711;
src/backend/services/update_firestore.py lines 12-22, 68-78;
src/api_service.py lines 138-157. -/
def parquetRoundTrip : PyVal → PyVal
  | .str s => .str s
  | .pyNone => .pyNone
  | .list xs => .array xs
  | .array xs => .array xs
  | .dict m => .dict m

/-- The ordered element sequence a cell carries, ignoring the Python
container type. -/
def seqElems : PyVal → Option (List String)
  | .list xs => some xs
  | .array xs => some xs
  | _ => none

/-- The array-to-list normalization the code applies to downloaded
list-valued cells (src/instagram_scraper.py lines 437-443 and
src/backend/services/update_firestore.py `convert_media_urls`):
an ndarray becomes a list with the same elements; other cells are kept. -/
def arrayToList : PyVal → PyVal
  | .array xs => .list xs
  | v => v

/-! ### Concrete records and posts used by the witnesses and
counterexamples -/

/-- A healthy prior record for post `Y` of user `alice`, referencing a
single stored image. -/
def recY : PostRecord :=
  { username := "alice", post_id := "Y", caption := "capY",
    timestamp := some 10, media_type := "post", like_count := 1,
    comment_count := 0, media_urls := ["http://a/y.jpg"],
    media_processed := false, media_processed_urls := [],
    media_processed_timestamp := none, media_processed_error := none,
    gcs_location := "instagram/alice/media/post__Y__post.jpg",
    ai_content_description := "", ai_processed_time := none,
    ai_analysis_results := some [("status", "pending")] }

/-- A prior record for album post `X` with completed enrichment. -/
def recX : PostRecord :=
  { username := "alice", post_id := "X", caption := "old caption",
    timestamp := some 100, media_type := "album", like_count := 3,
    comment_count := 1, media_urls := ["http://a.jpg", "http://b.jpg"],
    media_processed := false, media_processed_urls := [],
    media_processed_timestamp := none, media_processed_error := none,
    gcs_location := "instagram/alice/media/post__X__album",
    ai_content_description := "desc", ai_processed_time := some 50,
    ai_analysis_results := some [("description", "d")] }

/-- A raw fetch of album post `X` carrying a resolved caption and a
resolved timestamp. -/
def rawX : RawPost :=
  { code := "X", caption := .dict (some "new caption"),
    taken_at_utc := some (.int 1700), taken_at := none,
    media_type := some (.int 8), is_video := false, video_versions := [],
    video_url := none,
    carousel_media :=
      [{ is_video := false, video_url := none,
         thumbnail_url := some "http://a.jpg", image_versions := none },
       { is_video := false, video_url := none,
         thumbnail_url := some "http://b.jpg", image_versions := none }],
    image_versions2 := none, image_versions := none, thumbnail_url := none,
    display_url := none, like_count := 5, comment_count := 2 }

/-- A raw fetch of new single-image post `Y`. -/
def rawY : RawPost :=
  { code := "Y", caption := .dict (some "capY"),
    taken_at_utc := some (.int 1800), taken_at := none,
    media_type := some (.int 1), is_video := false, video_versions := [],
    video_url := none, carousel_media := [],
    image_versions2 := some [some "http://y.jpg"], image_versions := none,
    thumbnail_url := none, display_url := none, like_count := 7,
    comment_count := 0 }

/-- A re-fetch of post `X` whose timestamp fields are unparseable
(`taken_at_utc` a non-numeric string, `taken_at` the falsy int `0`). -/
def rawXNoTs : RawPost :=
  { rawX with taken_at_utc := some (.str "abc"), taken_at := some (.int 0) }

/-- A raw post whose `media_type` is the non-numeric string
`"carousel"`. -/
def rawZBadType : RawPost :=
  { rawY with code := "Z", media_type := some (.str "carousel") }

/-- Storage for the C1 scenario: post `Y`'s image plus an album object
`post__X__album/img0.jpg` with no record for `X`. -/
def storageC1 : Storage :=
  ["instagram/alice/media/post__Y__post.jpg",
   "instagram/alice/media/post__X__album/img0.jpg"]

/-- Storage for the C8 scenario: post `Y`'s image plus a flat object
named `post__X__album` directly under the media root. -/
def storageC8 : Storage :=
  ["instagram/alice/media/post__Y__post.jpg",
   "instagram/alice/media/post__X__album"]

/-- The placeholder the first C8 audit run admits for the flat
`post__X__album` object (wall clock `0`). -/
def placeholderX : PostRecord :=
  { username := "alice", post_id := "X", caption := "",
    timestamp := some 0, media_type := "album", like_count := 0,
    comment_count := 0, media_urls := [], media_processed := false,
    media_processed_urls := [], media_processed_timestamp := none,
    media_processed_error := none,
    gcs_location := "instagram/alice/media/post__X__album",
    ai_content_description := "", ai_processed_time := none,
    ai_analysis_results := some [("status", "pending")] }

/-- A raw post whose `media_type` is the unmapped int `5`. -/
def rawWIntType : RawPost :=
  { rawY with code := "W", media_type := some (.int 5) }

/-- A prior record whose `storage_location` is empty (permitted by the
data model when no media URLs were resolvable). -/
def recEmptyLoc : PostRecord :=
  { recY with post_id := "E", gcs_location := "", media_urls := [] }

/-- The fresh record the merge creates for `rawY`. -/
def recYFresh : PostRecord :=
  { username := "alice", post_id := "Y", caption := "capY",
    timestamp := some 1800, media_type := "post", like_count := 7,
    comment_count := 0, media_urls := ["http://y.jpg"],
    media_processed := false, media_processed_urls := [],
    media_processed_timestamp := none, media_processed_error := none,
    gcs_location := "instagram/alice/media/post__Y__post.jpg",
    ai_content_description := "", ai_processed_time := none,
    ai_analysis_results := some [("status", "pending")] }

/-- The RecordSet produced by merging `[rawX, rawY]` into `[recX]` at
wall clock `999`. -/
def mergedC3 : List PostRecord :=
  [{ recX with timestamp := some 1700 }, recYFresh]

/-! ### Helper lemmas about the Merge Engine -/

theorem normalizePost_fields {u : String} {now : Int}
    {ex : Option (List PostRecord)} {p : RawPost} {c : PostRecord}
    (h : normalizePost u now ex p = .ok c) :
    c.post_id = p.code ∧ c.caption = captionText p.caption ∧
      c.timestamp = some (resolveTimestamp p ex now) ∧
      c.ai_content_description = "" ∧ c.ai_processed_time = none ∧
      c.ai_analysis_results = some [("status", "pending")] := by
  cases hmt : resolveMediaType p with
  | error e => simp [normalizePost, hmt] at h
  | ok mt =>
    cases hurl : extractMediaUrls p mt with
    | error e => simp [normalizePost, hmt, hurl] at h
    | ok urls =>
      simp only [normalizePost, hmt, hurl, Except.bind] at h
      cases h
      simp

theorem normalizeAll_nil {u : String} {now : Int}
    {ex : Option (List PostRecord)} :
    normalizeAll u now ex [] = .ok [] := rfl

theorem normalizeAll_cons {u : String} {now : Int}
    {ex : Option (List PostRecord)} {p : RawPost} {ps : List RawPost}
    {cs : List PostRecord}
    (h : normalizeAll u now ex (p :: ps) = .ok cs) :
    ∃ c cs', normalizePost u now ex p = .ok c ∧
      normalizeAll u now ex ps = .ok cs' ∧ cs = c :: cs' := by
  cases hc : normalizePost u now ex p with
  | error e => simp [normalizeAll, hc, Except.bind] at h
  | ok c =>
    cases hcs : normalizeAll u now ex ps with
    | error e => simp [normalizeAll, hc, hcs, Except.bind] at h
    | ok cs' =>
      refine ⟨c, cs', rfl, rfl, ?_⟩
      simp only [normalizeAll, hc, hcs, Except.bind] at h
      cases h
      rfl

theorem normalizeAll_codes {u : String} {now : Int}
    {ex : Option (List PostRecord)} :
    ∀ {posts : List RawPost} {cs : List PostRecord},
      normalizeAll u now ex posts = .ok cs →
      cs.map (fun c => c.post_id) = posts.map (fun p => p.code)
  | [], cs, h => by
    simp only [normalizeAll] at h
    cases h
    rfl
  | p :: ps, cs, h => by
    obtain ⟨c, cs', hc, hcs, rfl⟩ := normalizeAll_cons h
    simp [List.map_cons, (normalizePost_fields hc).1, normalizeAll_codes hcs]

theorem extract_eq_merge {posts : List RawPost} {u : String}
    {ex : Option (List PostRecord)} {now : Int} {rs : List PostRecord}
    (h : extract_post_metadata posts u ex now = .ok rs) :
    ∃ cands, normalizeAll u now ex posts = .ok cands ∧
      rs = mergeCandidates ex cands := by
  cases hc : normalizeAll u now ex posts with
  | error e => simp [extract_post_metadata, hc, Except.bind] at h
  | ok cands =>
    refine ⟨cands, rfl, ?_⟩
    simp only [extract_post_metadata, hc, Except.bind] at h
    cases h
    rfl

/-- `patchTimestamp` touches only the `timestamp` field. -/
theorem patchTimestamp_fields (cands : List PostRecord) (r : PostRecord) :
    (patchTimestamp cands r).post_id = r.post_id ∧
      (patchTimestamp cands r).caption = r.caption ∧
      (patchTimestamp cands r).ai_content_description =
        r.ai_content_description ∧
      (patchTimestamp cands r).ai_processed_time = r.ai_processed_time ∧
      (patchTimestamp cands r).ai_analysis_results =
        r.ai_analysis_results := by
  unfold patchTimestamp
  cases lookupLast cands r.post_id with
  | none => simp
  | some c =>
    by_cases h : c.timestamp.isSome <;> simp [h]

/-- `normResults` touches only the `ai_analysis_results` field. -/
theorem normResults_fields (r : PostRecord) :
    (normResults r).post_id = r.post_id ∧
      (normResults r).caption = r.caption ∧
      (normResults r).timestamp = r.timestamp ∧
      (normResults r).ai_content_description = r.ai_content_description ∧
      (normResults r).ai_processed_time = r.ai_processed_time ∧
      (normResults r).ai_analysis_results =
        some (r.ai_analysis_results.getD []) := by
  simp [normResults]

/-! ### Helper lemmas about the Integrity Auditor -/

theorem verify_eq_some {S : Storage} {u : String} {rs : List PostRecord}
    {now : Int} {rs' : List PostRecord} {w : Bool}
    (h : verify_metadata_integrity S u rs now = some (rs', w)) :
    rs.isEmpty = false ∧
      ∃ ph, placeholdersFor u now
          (unreferencedFiles S u (removeMissing S rs)) = some ph ∧
        rs' = removeMissing S rs ++ ph ∧
        w = (!(missingPostIds S rs).isEmpty ||
          !(unreferencedFiles S u (removeMissing S rs)).isEmpty) := by
  by_cases he : rs.isEmpty
  · simp [verify_metadata_integrity, he] at h
  · refine ⟨by simpa using he, ?_⟩
    cases hp : placeholdersFor u now
        (unreferencedFiles S u (removeMissing S rs)) with
    | none => simp [verify_metadata_integrity, he, hp] at h
    | some ph =>
      refine ⟨ph, rfl, ?_⟩
      simp only [verify_metadata_integrity, he, if_false, hp,
        Bool.false_eq_true] at h
      cases h
      exact ⟨rfl, rfl⟩

theorem placeholdersFor_mem {u : String} {now : Int} :
    ∀ {l : List String} {out : List PostRecord},
      placeholdersFor u now l = some out →
      ∀ r ∈ out, ∃ f ∈ l, mkPlaceholder u now f = some r
  | [], out, h => by
    simp only [placeholdersFor] at h
    cases h
    simp
  | f :: fs, out, h => by
    cases hm : mkPlaceholder u now f with
    | none => simp [placeholdersFor, hm] at h
    | some r0 =>
      cases hrest : placeholdersFor u now fs with
      | none => simp [placeholdersFor, hm, hrest] at h
      | some out' =>
        simp only [placeholdersFor, hm, hrest] at h
        cases h
        intro r hr
        rcases List.mem_cons.mp hr with rfl | hr'
        · exact ⟨f, List.mem_cons_self f fs, hm⟩
        · obtain ⟨g, hg, hgm⟩ := placeholdersFor_mem hrest r hr'
          exact ⟨g, List.mem_cons_of_mem f hg, hgm⟩

theorem placeholdersFor_covers {u : String} {now : Int} :
    ∀ {l : List String} {out : List PostRecord},
      placeholdersFor u now l = some out →
      ∀ f ∈ l, ∃ r ∈ out, mkPlaceholder u now f = some r
  | [], out, h => by simp
  | f :: fs, out, h => by
    cases hm : mkPlaceholder u now f with
    | none => simp [placeholdersFor, hm] at h
    | some r0 =>
      cases hrest : placeholdersFor u now fs with
      | none => simp [placeholdersFor, hm, hrest] at h
      | some out' =>
        simp only [placeholdersFor, hm, hrest] at h
        cases h
        intro g hg
        rcases List.mem_cons.mp hg with rfl | hg'
        · exact ⟨r0, List.mem_cons_self r0 out', hm⟩
        · obtain ⟨r, hr, hrm⟩ := placeholdersFor_covers hrest g hg'
          exact ⟨r, List.mem_cons_of_mem r0 hr, hrm⟩

theorem mkPlaceholder_fields {u : String} {now : Int} {f : String}
    {r : PostRecord} (h : mkPlaceholder u now f = some r) :
    r.post_id = filePostId f ∧ r.gcs_location = f ∧
      fileMediaType f = some r.media_type := by
  cases hm : fileMediaType f with
  | none => simp [mkPlaceholder, hm] at h
  | some mt =>
    simp only [mkPlaceholder, hm, Option.map_some'] at h
    cases h
    exact ⟨rfl, rfl, rfl⟩

/-- A file flagged by the unreferenced-media pass has a `post__`-prefixed
basename, hence a non-empty path. -/
theorem unreferenced_ne_empty {S : Storage} {u : String}
    {rs : List PostRecord} {f : String}
    (h : f ∈ unreferencedFiles S u rs) : f ≠ "" := by
  intro hf
  subst hf
  have hc := (List.mem_filter.mp h).2
  simp only [Bool.and_eq_true] at hc
  exact absurd hc.1.1 (by decide)

theorem unreferenced_sub_mediaFiles {S : Storage} {u : String}
    {rs : List PostRecord} {f : String}
    (h : f ∈ unreferencedFiles S u rs) :
    f ∈ mediaFiles S u ∧ pyStartsWith (basenameOf f) "post__" = true ∧
      rs.any (fun r => r.post_id = filePostId f) = false := by
  have hm := List.mem_filter.mp h
  refine ⟨hm.1, ?_, ?_⟩ <;>
    · have hc := hm.2
      simp only [Bool.and_eq_true, Bool.not_eq_true'] at hc
      tauto

theorem mem_mediaFiles_mem_storage {S : Storage} {u : String} {f : String}
    (h : f ∈ mediaFiles S u) : f ∈ S :=
  (List.mem_filter.mp h).1

theorem mem_removeMissing {S : Storage} {rs : List PostRecord}
    {r : PostRecord} (h : r ∈ removeMissing S rs) :
    r ∈ rs ∧ recordMissing S r = false := by
  have hm := List.mem_filter.mp h
  refine ⟨hm.1, ?_⟩
  by_contra hrm
  have hrm' : recordMissing S r = true := by
    cases hx : recordMissing S r
    · exact absurd hx hrm
    · rfl
  have hmem : r.post_id ∈ missingPostIds S rs :=
    List.mem_map.mpr ⟨r, List.mem_filter.mpr ⟨hm.1, hrm'⟩, rfl⟩
  have hc := hm.2
  rw [Bool.not_eq_true'] at hc
  simp [List.elem_iff] at hc
  exact hc hmem

theorem mem_missingPostIds {S : Storage} {rs : List PostRecord}
    {r : PostRecord} (hr : r ∈ rs) (hm : recordMissing S r = true) :
    r.post_id ∈ missingPostIds S rs :=
  List.mem_map.mpr ⟨r, List.mem_filter.mpr ⟨hr, hm⟩, rfl⟩

/-! ### Claim theorems -/

/-- C1: the Integrity Auditor is claimed to admit a placeholder record
with `media_type = "album"` when storage holds `post__X__album/img0.jpg`
and no record for `X` exists. The code does not: the unreferenced-media
pass looks only at the last path component (`img0.jpg`), which never
starts with `post__` for an object nested under an album prefix, so the
run leaves the snapshot untouched — no record for `X` is admitted and no
write happens, contradicting the code's own comment (lines 998-999)
listing the album path format among the shapes to trace. -/
theorem c1_album_object_never_traced :
    verify_metadata_integrity storageC1 "alice" [recY] 0 =
      some ([recY], false) := by
  rfl

/-- C2 counterexample: no empty-result guard exists. With storage holding
none of the claimed media, the audit of the non-empty snapshot `[recY]`
persists (`wrote = true`) the empty RecordSet, which the claim says must
be refused. -/
theorem c2_counterexample :
    verify_metadata_integrity [] "alice" [recY] 0 = some ([], true) ∧
      ([recY] : List PostRecord) ≠ [] := by
  exact ⟨by rfl, by simp⟩

/-- C3 counterexample: merging a batch that re-reports known post `X`
(fetched caption `"new caption"`) plus new post `Y` yields a set of size
2, but record `X` keeps its prior caption `"old caption"` — the merge
never updates the caption of an already-known record, contradicting the
claimed "caption updated to the newly fetched caption". -/
theorem c3_counterexample :
    (extract_post_metadata [rawX, rawY] "alice" (some [recX]) 999).map
        (fun rs => rs.map (fun r => (r.post_id, r.caption))) =
      .ok [("X", "old caption"), ("Y", "capY")] ∧
      ("old caption" : String) ≠ "new caption" := by
  exact ⟨by rfl, by decide⟩

/-- C6 counterexample: a fetch batch containing two raw posts with the
same `post_id` (and no prior set) merges to a RecordSet whose `post_id`
multiset has a repeat — the Merge Engine never deduplicates within a
batch. -/
theorem c6_counterexample :
    (extract_post_metadata [rawY, rawY] "alice" none 0).map
        (fun rs => rs.map (fun r => r.post_id)) = .ok ["Y", "Y"] ∧
      ¬ (["Y", "Y"] : List String).Nodup := by
  exact ⟨by rfl, by decide⟩

/-- C8 counterexample: with a flat object named `post__X__album` directly
under the media root, the first audit admits an album-typed placeholder
whose prefix contains no objects; the second audit run, with storage
unchanged, removes and re-admits it and performs a persistence write —
the audit is not idempotent. -/
theorem c8_counterexample :
    verify_metadata_integrity storageC8 "alice" [recY] 0 =
        some ([recY, placeholderX], true) ∧
      auditWrote storageC8 "alice" [recY, placeholderX] 1 = true := by
  exact ⟨by rfl, by rfl⟩

/-- C9 counterexample: a raw post whose `media_type` is the non-numeric
string `"carousel"` is not admitted with the default `"post"`:
`int(raw_media_type)` raises an uncaught `ValueError`, so the whole
normalization call fails and no record is produced. -/
theorem c9_counterexample :
    extract_post_metadata [rawZBadType] "alice" none 0 = .error () := by
  rfl

/-- C4 counterexample: the parquet round trip does not return a
list-valued field with its original Python type — a `list` cell comes
back as a NumPy `ndarray`, so field-for-field equality "in both type and
value" fails on `media_urls = ["a.jpg", "b.jpg"]`. -/
theorem c4_counterexample :
    parquetRoundTrip (.list ["a.jpg", "b.jpg"]) ≠ .list ["a.jpg", "b.jpg"] ∧
      parquetRoundTrip (.list ["a.jpg", "b.jpg"]) =
        .array ["a.jpg", "b.jpg"] := by
  exact ⟨by simp [parquetRoundTrip], rfl⟩

/-- C4 amended: the round trip preserves the values and order of
list-valued fields (returning them as arrays, not lists — equality of the
Python list type holds only after the code's own array-to-list
normalization), keeps mapping-valued fields as mappings, keeps strings,
and keeps nulls distinct from empty strings. -/
theorem c4_roundtrip_values_not_types (xs : List String)
    (m : List (String × String)) (s : String) :
    seqElems (parquetRoundTrip (.list xs)) = some xs ∧
      arrayToList (parquetRoundTrip (.list xs)) = .list xs ∧
      parquetRoundTrip (.dict m) = .dict m ∧
      parquetRoundTrip (.str s) = .str s ∧
      parquetRoundTrip .pyNone = .pyNone ∧
      (PyVal.pyNone ≠ .str "") := by
  refine ⟨rfl, rfl, rfl, rfl, rfl, by simp⟩

/-- C9 amended: an unrecognized `media_type` is defaulted to `"post"`
only when it is an int, or a string parsing as an int, outside the
mapping `{1, 2, 8}`; a non-numeric string instead raises an uncaught
`ValueError`, failing the whole normalization call. -/
theorem c9_unknown_media_type (p : RawPost) (n : Int) (s : String) :
    (p.media_type = some (.int n) → n ≠ 1 → n ≠ 2 → n ≠ 8 →
        resolveMediaType p = .ok "post") ∧
      (p.media_type = some (.str s) → pyParseInt s = some n →
        n ≠ 1 → n ≠ 2 → n ≠ 8 → resolveMediaType p = .ok "post") ∧
      (p.media_type = some (.str s) → pyParseInt s = none →
        resolveMediaType p = .error ()) := by
  refine ⟨fun h h1 h2 h8 => ?_, fun h hp h1 h2 h8 => ?_, fun h hp => ?_⟩
  · simp [resolveMediaType, h, mediaTypeMap, h1, h2, h8]
  · simp [resolveMediaType, h, hp, mediaTypeMap, h1, h2, h8]
  · simp [resolveMediaType, h, hp]

/-- Witness for C9: the unmapped int `5` resolves to `"post"`; the
non-numeric string `"carousel"` makes resolution fail. -/
theorem c9_unknown_media_type_witness :
    resolveMediaType rawWIntType = .ok "post" ∧
      resolveMediaType rawZBadType = .error () := by
  exact ⟨(c9_unknown_media_type rawWIntType 5 "").1 rfl (by decide)
      (by decide) (by decide),
    (c9_unknown_media_type rawZBadType 0 "carousel").2.2 rfl (by rfl)⟩

/-- C5: when both timestamp fields of a fetched post are absent or
unparseable and the prior set's first record with the same `post_id` has
a resolved timestamp `t`, the merged record carries `t`; the resolved
value does not depend on the wall clock at all, so the "now" fallback is
not used. -/
theorem c5_timestamp_precedence (u : String) (now t : Int) (p : RawPost)
    (em : List PostRecord) (r : PostRecord) (rs : List PostRecord)
    (h1 : tryTimeField p.taken_at_utc = none)
    (h2 : tryTimeField p.taken_at = none)
    (hfind : em.find? (fun q => q.post_id = p.code) = some r)
    (ht : r.timestamp = some t)
    (hex : extract_post_metadata [p] u (some em) now = .ok rs) :
    (∀ r', r' ∈ rs → r'.post_id = p.code → r'.timestamp = some t) ∧
      (∀ now', resolveTimestamp p (some em) now' = t) := by
  have hres : ∀ now', resolveTimestamp p (some em) now' = t := by
    intro now'
    simp [resolveTimestamp, h1, h2, hfind, ht]
  refine ⟨?_, hres⟩
  obtain ⟨cands, hnorm, hmerge⟩ := extract_eq_merge hex
  obtain ⟨c, cs', hc, hcs, rfl⟩ := normalizeAll_cons hnorm
  have hnil : cs' = [] := by
    simpa [normalizeAll] using hcs.symm
  subst hnil
  obtain ⟨hcid, -, hcts, -⟩ := normalizePost_fields hc
  intro r' hr' hrid
  subst hmerge
  simp only [mergeCandidates, List.mem_map, List.mem_append] at hr'
  obtain ⟨x, hx | hx, rfl⟩ := hr'
  · -- a prior row, patched with the candidate's timestamp
    obtain ⟨q, hq, rfl⟩ := hx
    have hqid : q.post_id = p.code := by
      have := (patchTimestamp_fields [c] q).1
      have h' := (normResults_fields (patchTimestamp [c] q)).1
      rw [h', this] at hrid
      exact hrid
    have hl : lookupLast [c] q.post_id = some c := by
      simp [lookupLast, hqid, hcid]
    have : patchTimestamp [c] q = { q with timestamp := c.timestamp } := by
      simp [patchTimestamp, hl, hcts]
    rw [(normResults_fields _).2.2.1, this]
    simpa [hcts] using hres now
  · -- a fresh candidate: impossible, its post_id is already in the prior set
    exfalso
    have hxmem := List.mem_filter.mp hx
    have hxc : x = c := by simpa using hxmem.1
    subst hxc
    have hany : em.any (fun q => q.post_id = x.post_id) = true := by
      refine List.any_eq_true.mpr ⟨r, List.mem_of_find?_eq_some hfind, ?_⟩
      have hrid' := List.find?_some hfind
      simp only [decide_eq_true_eq] at hrid'
      simp [hcid, hrid']
    simp [hany] at hxmem

/-- Witness for C5: re-fetching album post `X` with unparseable timestamp
fields against the prior set `[recX]` (timestamp `100`) keeps `100`. -/
theorem c5_timestamp_precedence_witness :
    recX.timestamp = some 100 ∧
      resolveTimestamp rawXNoTs (some [recX]) 777 = 100 := by
  have h := c5_timestamp_precedence "alice" 999 100 rawXNoTs [recX] recX
    [recX] (by rfl) (by rfl) (by rfl) (by rfl) (by rfl)
  exact ⟨h.1 recX (by simp) (by rfl), h.2 777⟩

theorem patchTimestamp_post_id (cands : List PostRecord) (r : PostRecord) :
    (patchTimestamp cands r).post_id = r.post_id :=
  (patchTimestamp_fields cands r).1

theorem normResults_post_id (r : PostRecord) :
    (normResults r).post_id = r.post_id := rfl

/-- C3 amended: merging a batch that re-reports known post `X` (with any
fetched caption) together with new post `Y` yields a set of size 2 in
which the record for `X` keeps its prior caption and enrichment group
(only its timestamp is refreshed), and `Y` is created with pending
enrichment and the fetched caption. -/
theorem c3_known_post_keeps_caption (u : String) (now : Int)
    (px py : RawPost) (rx : PostRecord) (rs : List PostRecord)
    (hx : px.code = rx.post_id) (hy : py.code ≠ rx.post_id)
    (hex : extract_post_metadata [px, py] u (some [rx]) now = .ok rs) :
    rs.length = 2 ∧
      (∃ r' ∈ rs, r'.post_id = rx.post_id ∧ r'.caption = rx.caption ∧
        r'.ai_content_description = rx.ai_content_description ∧
        r'.ai_processed_time = rx.ai_processed_time ∧
        r'.ai_analysis_results = some (rx.ai_analysis_results.getD [])) ∧
      (∃ r' ∈ rs, r'.post_id = py.code ∧ r'.caption = captionText py.caption ∧
        r'.ai_content_description = "" ∧ r'.ai_processed_time = none ∧
        r'.ai_analysis_results = some [("status", "pending")]) := by
  obtain ⟨cands, hnorm, hmerge⟩ := extract_eq_merge hex
  obtain ⟨cx, cs1, hcx, hrest, rfl⟩ := normalizeAll_cons hnorm
  obtain ⟨cy, cs2, hcy, hrest2, rfl⟩ := normalizeAll_cons hrest
  have hnil : cs2 = [] := by simpa [normalizeAll] using hrest2.symm
  subst hnil
  obtain ⟨hcxid, hcxcap, hcxts, hcxdesc, hcxtime, hcxres⟩ :=
    normalizePost_fields hcx
  obtain ⟨hcyid, hcycap, hcyts, hcydesc, hcytime, hcyres⟩ :=
    normalizePost_fields hcy
  have hxc : rx.post_id = cx.post_id := by rw [hcxid]; exact hx.symm
  have hyc : ¬ (rx.post_id = cy.post_id) := by
    rw [hcyid]
    exact fun h => hy h.symm
  have hyc2 : ¬ (cx.post_id = cy.post_id) := by
    rw [hcxid, hcyid, hx]
    exact fun h => hy h.symm
  have hrs : rs = [normResults (patchTimestamp [cx, cy] rx),
      normResults cy] := by
    rw [hmerge]
    simp [mergeCandidates, List.filter_cons, hxc, hyc, hyc2]
  subst hrs
  refine ⟨rfl, ⟨normResults (patchTimestamp [cx, cy] rx), by simp, ?_⟩,
    ⟨normResults cy, by simp, ?_⟩⟩
  · obtain ⟨hp1, hp2, hp3, hp4, hp5⟩ := patchTimestamp_fields [cx, cy] rx
    obtain ⟨hn1, hn2, hn3, hn4, hn5, hn6⟩ :=
      normResults_fields (patchTimestamp [cx, cy] rx)
    exact ⟨by rw [hn1, hp1], by rw [hn2, hp2], by rw [hn4, hp3],
      by rw [hn5, hp4], by rw [hn6, hp5]⟩
  · obtain ⟨hn1, hn2, hn3, hn4, hn5, hn6⟩ := normResults_fields cy
    refine ⟨by rw [hn1, hcyid], by rw [hn2, hcycap], by rw [hn4, hcydesc],
      by rw [hn5, hcytime], ?_⟩
    rw [hn6, hcyres]
    rfl

/-- Witness for C3 amended: `[rawX, rawY]` merged into `[recX]` at wall
clock `999` gives `mergedC3`. -/
theorem c3_known_post_keeps_caption_witness :
    mergedC3.length = 2 ∧
      (∃ r' ∈ mergedC3, r'.post_id = recX.post_id ∧
        r'.caption = recX.caption ∧
        r'.ai_content_description = recX.ai_content_description ∧
        r'.ai_processed_time = recX.ai_processed_time ∧
        r'.ai_analysis_results = some (recX.ai_analysis_results.getD [])) ∧
      (∃ r' ∈ mergedC3, r'.post_id = rawY.code ∧
        r'.caption = captionText rawY.caption ∧
        r'.ai_content_description = "" ∧ r'.ai_processed_time = none ∧
        r'.ai_analysis_results = some [("status", "pending")]) :=
  c3_known_post_keeps_caption "alice" 999 rawX rawY recX mergedC3 rfl
    (by decide) (by rfl)

/-- C6 amended: the merged RecordSet has no repeated `post_id` provided
the fetch batch itself has pairwise-distinct `post_id`s and the prior set
(when present) has unique `post_id`s; the Merge Engine does not
deduplicate inside one batch. -/
theorem c6_merge_nodup (posts : List RawPost) (u : String)
    (ex : Option (List PostRecord)) (now : Int) (rs : List PostRecord)
    (hex : extract_post_metadata posts u ex now = .ok rs)
    (hbatch : (posts.map (fun p => p.code)).Nodup)
    (hprior : ∀ em, ex = some em → (em.map (fun r => r.post_id)).Nodup) :
    (rs.map (fun r => r.post_id)).Nodup := by
  obtain ⟨cands, hnorm, rfl⟩ := extract_eq_merge hex
  have hcids : cands.map (fun c => c.post_id) =
      posts.map (fun p => p.code) := normalizeAll_codes hnorm
  cases ex with
  | none => simpa [mergeCandidates, hcids] using hbatch
  | some em =>
    have hem := hprior em rfl
    simp only [mergeCandidates, List.map_map, List.map_append]
    have hpatched : (em.map ((fun r => r.post_id) ∘ normResults ∘
        patchTimestamp cands)) = em.map (fun r => r.post_id) := by
      refine List.map_congr_left (fun r _ => ?_)
      simp [Function.comp, normResults_post_id, patchTimestamp_post_id]
    have hnew : ((cands.filter (fun c =>
        !(em.any (fun r => r.post_id = c.post_id)))).map
          ((fun r => r.post_id) ∘ normResults)) =
        (cands.filter (fun c =>
          !(em.any (fun r => r.post_id = c.post_id)))).map
            (fun r => r.post_id) := by
      refine List.map_congr_left (fun r _ => ?_)
      simp [Function.comp, normResults_post_id]
    rw [hpatched, hnew]
    refine List.Nodup.append hem ?_ ?_
    · refine List.Nodup.sublist ?_ (hcids ▸ hbatch)
      exact List.Sublist.map _ (List.filter_sublist cands)
    · intro a ha1 ha2
      obtain ⟨r1, hr1, hr1a⟩ := List.mem_map.mp ha1
      obtain ⟨c1, hc1, hc1a⟩ := List.mem_map.mp ha2
      have hc1f := List.mem_filter.mp hc1
      have : em.any (fun r => r.post_id = c1.post_id) = true := by
        refine List.any_eq_true.mpr ⟨r1, hr1, ?_⟩
        simp [hr1a, hc1a]
      simp [this] at hc1f

/-- Witness for C6 amended: a distinct-id batch `[rawX, rawY]` merged
into the prior set `[recX]`. -/
theorem c6_merge_nodup_witness :
    (mergedC3.map (fun r => r.post_id)).Nodup :=
  c6_merge_nodup [rawX, rawY] "alice" (some [recX]) 999 mergedC3 (by rfl)
    (by decide) (fun em hem => by cases hem; decide)

/-- C7: a prior record with non-empty `enrichment_description` survives
any merge with its enrichment group untouched (description, timestamp,
and — as long as the prior cell held a dict — analysis results), and the
number of records carrying its `post_id` is unchanged, so the merge
neither resets nor duplicates it. -/
theorem c7_enrichment_frame (posts : List RawPost) (u : String) (now : Int)
    (em : List PostRecord) (r : PostRecord) (m : List (String × String))
    (rs : List PostRecord)
    (hex : extract_post_metadata posts u (some em) now = .ok rs)
    (hr : r ∈ em)
    (hdesc : r.ai_content_description ≠ "")
    (hres : r.ai_analysis_results = some m)
    (hrep : ∃ p ∈ posts, p.code = r.post_id) :
    (∃ r' ∈ rs, r'.post_id = r.post_id ∧
      r'.ai_content_description = r.ai_content_description ∧
      r'.ai_processed_time = r.ai_processed_time ∧
      r'.ai_analysis_results = some m) ∧
    rs.countP (fun x => decide (x.post_id = r.post_id)) =
      em.countP (fun x => decide (x.post_id = r.post_id)) := by
  obtain ⟨cands, hnorm, rfl⟩ := extract_eq_merge hex
  simp only [mergeCandidates]
  constructor
  · refine ⟨normResults (patchTimestamp cands r), ?_, ?_⟩
    · exact List.mem_map_of_mem _
        (List.mem_append_left _ (List.mem_map_of_mem _ hr))
    · obtain ⟨hp1, hp2, hp3, hp4, hp5⟩ := patchTimestamp_fields cands r
      obtain ⟨hn1, hn2, hn3, hn4, hn5, hn6⟩ :=
        normResults_fields (patchTimestamp cands r)
      refine ⟨by rw [hn1, hp1], by rw [hn4, hp3], by rw [hn5, hp4], ?_⟩
      rw [hn6, hp5, hres]
      rfl
  · rw [List.countP_map, List.countP_append]
    have hpatched : (em.map (patchTimestamp cands)).countP
        ((fun x => decide (x.post_id = r.post_id)) ∘ normResults) =
        em.countP (fun x => decide (x.post_id = r.post_id)) := by
      rw [List.countP_map]
      refine List.countP_congr (fun a _ => ?_)
      simp [Function.comp, normResults_post_id, patchTimestamp_post_id]
    have hnew : (cands.filter (fun c =>
        !(em.any (fun q => q.post_id = c.post_id)))).countP
        ((fun x => decide (x.post_id = r.post_id)) ∘ normResults) = 0 := by
      refine List.countP_eq_zero.mpr (fun c hc => ?_)
      have hcf := List.mem_filter.mp hc
      simp only [Function.comp, normResults_post_id, decide_eq_true_eq]
      intro hcontra
      have : em.any (fun q => q.post_id = c.post_id) = true :=
        List.any_eq_true.mpr ⟨r, hr, by simp [hcontra]⟩
      simp [this] at hcf
    rw [hpatched, hnew]
    simp
  -- the re-report hypothesis `hrep` is part of the claim's wording; the
  -- frame property holds for every batch, re-reporting or not

/-- Witness for C7: re-fetching `rawX` against the enriched prior record
`recX` leaves description `"desc"`, time `50`, and the results dict
untouched, with exactly one record for `X` before and after. -/
theorem c7_enrichment_frame_witness :
    (∃ r' ∈ [{ recX with timestamp := some 1700 }], r'.post_id = recX.post_id ∧
      r'.ai_content_description = recX.ai_content_description ∧
      r'.ai_processed_time = recX.ai_processed_time ∧
      r'.ai_analysis_results = some [("description", "d")]) ∧
    ([{ recX with timestamp := some 1700 }].countP
        (fun x => decide (x.post_id = recX.post_id))) =
      ([recX].countP (fun x => decide (x.post_id = recX.post_id))) :=
  c7_enrichment_frame [rawX] "alice" 999 [recX] recX [("description", "d")]
    [{ recX with timestamp := some 1700 }] (by rfl) (by simp)
    (by decide) (by rfl) ⟨rawX, by simp, by rfl⟩

/-- C2 amended: persistence writes are not guarded. Whenever the audited
snapshot is non-empty, every record's claimed storage is missing, and no
object under the media root has a `post__`-prefixed basename, the audit
persists (`wrote = true`) the empty RecordSet over the non-empty prior
snapshot instead of refusing the write. -/
theorem c2_empty_write_not_refused (S : Storage) (u : String)
    (rs : List PostRecord) (now : Int)
    (hne : rs ≠ [])
    (hmiss : ∀ r ∈ rs, recordMissing S r = true)
    (hnopost : ∀ f ∈ mediaFiles S u,
      pyStartsWith (basenameOf f) "post__" = false) :
    verify_metadata_integrity S u rs now = some ([], true) := by
  have hempty : rs.isEmpty = false := by
    cases rs with
    | nil => exact absurd rfl hne
    | cons a l => rfl
  have hfilt : rs.filter (recordMissing S) = rs :=
    List.filter_eq_self.mpr (fun r hr => hmiss r hr)
  have hmp : missingPostIds S rs ≠ [] := by
    unfold missingPostIds
    rw [hfilt]
    simpa using hne
  have hrem : removeMissing S rs = [] := by
    unfold removeMissing
    refine List.filter_eq_nil_iff.mpr (fun r hr => ?_)
    have hmem : r.post_id ∈ missingPostIds S rs :=
      mem_missingPostIds hr (hmiss r hr)
    simp [List.elem_iff, hmem]
  have hunref : unreferencedFiles S u ([] : List PostRecord) = [] := by
    unfold unreferencedFiles
    refine List.filter_eq_nil_iff.mpr (fun f hf => ?_)
    simp [hnopost f hf]
  unfold verify_metadata_integrity
  rw [hempty]
  simp only [Bool.false_eq_true, if_false, hrem, hunref, placeholdersFor]
  simp [hmp]

/-- Witness for C2 amended: empty storage against the single-record
snapshot `[recY]`. -/
theorem c2_empty_write_not_refused_witness :
    verify_metadata_integrity [] "alice" [recY] 0 = some ([], true) :=
  c2_empty_write_not_refused [] "alice" [recY] 0 (by simp)
    (fun r hr => by
      rcases List.mem_singleton.mp hr with rfl
      rfl)
    (fun f hf => by simp [mediaFiles, listBlobs] at hf)

/-- C10: the missing-media pass collects every record whose
`storage_location` is empty together with the truly-missing ones (first
conjunct), so after a successful audit every surviving record — pruned
survivor or admitted placeholder — has a non-empty `storage_location`
(second conjunct). -/
theorem c10_empty_location_purged (S : Storage) (u : String)
    (rs : List PostRecord) (now : Int) (rs' : List PostRecord) (w : Bool)
    (hex : verify_metadata_integrity S u rs now = some (rs', w)) :
    (∀ r ∈ rs, r.gcs_location = "" → r.post_id ∈ missingPostIds S rs) ∧
      (∀ r ∈ rs', r.gcs_location ≠ "") := by
  obtain ⟨hne, ph, hph, hrs', hw⟩ := verify_eq_some hex
  constructor
  · intro r hr hloc
    exact mem_missingPostIds hr (by simp [recordMissing, hloc])
  · intro r hr
    rw [hrs'] at hr
    rcases List.mem_append.mp hr with h | h
    · intro hloc
      have hm := mem_removeMissing h
      rw [show recordMissing S r = true by simp [recordMissing, hloc]]
        at hm
      exact absurd hm.2 (by simp)
    · obtain ⟨f, hfin, hmk⟩ := placeholdersFor_mem hph r h
      rw [(mkPlaceholder_fields hmk).2.1]
      exact unreferenced_ne_empty hfin

/-- Witness for C10: auditing `[recY, recEmptyLoc]` against `storageC1`
removes the empty-location record `recEmptyLoc` and leaves only records
with non-empty locations. -/
theorem c10_empty_location_purged_witness :
    recEmptyLoc.post_id ∈ missingPostIds storageC1 [recY, recEmptyLoc] ∧
      recY.gcs_location ≠ "" := by
  have h := c10_empty_location_purged storageC1 "alice" [recY, recEmptyLoc]
    0 [recY] true (by rfl)
  exact ⟨h.1 recEmptyLoc (by simp) rfl, h.2 recY (by simp)⟩

/-- C8 amended: the audit is idempotent — the second of two runs over
unchanged storage writes nothing and returns the snapshot unchanged —
provided no object directly under the media root has a `post__`-prefixed
basename parsing to media type `"album"` (such a flat object is admitted
as an album placeholder whose prefix holds no objects, and every later
run removes and re-admits it, writing each time). -/
theorem c8_audit_idempotent (S : Storage) (u : String)
    (rs rs1 : List PostRecord) (now now' : Int) (w1 : Bool)
    (hH : ∀ f ∈ mediaFiles S u,
      pyStartsWith (basenameOf f) "post__" = true →
      fileMediaType f ≠ some "album")
    (h1 : verify_metadata_integrity S u rs now = some (rs1, w1)) :
    auditWrote S u rs1 now' = false ∧
      (rs1 ≠ [] →
        verify_metadata_integrity S u rs1 now' = some (rs1, false)) := by
  obtain ⟨hne, ph, hph, hrs1, hw⟩ := verify_eq_some h1
  -- every record surviving the first run passes the missing-media check
  have hA : ∀ r ∈ rs1, recordMissing S r = false := by
    intro r hr
    rw [hrs1] at hr
    rcases List.mem_append.mp hr with h | h
    · exact (mem_removeMissing h).2
    · obtain ⟨f, hfin, hmk⟩ := placeholdersFor_mem hph r h
      obtain ⟨hpid, hloc, hmt⟩ := mkPlaceholder_fields hmk
      obtain ⟨hfmedia, hfpost, -⟩ := unreferenced_sub_mediaFiles hfin
      have hmtne : r.media_type ≠ "album" := by
        intro hcontra
        exact hH f hfmedia hfpost (hcontra ▸ hmt)
      have hfS : f ∈ S := mem_mediaFiles_mem_storage hfmedia
      have hfne : f ≠ "" := unreferenced_ne_empty hfin
      unfold recordMissing
      rw [hloc, if_neg hfne, if_neg hmtne]
      simp [blobExists, List.elem_iff, hfS]
  have hB : missingPostIds S rs1 = [] := by
    unfold missingPostIds
    rw [List.filter_eq_nil_iff.mpr (fun r hr => by simp [hA r hr])]
    rfl
  have hC : removeMissing S rs1 = rs1 := by
    unfold removeMissing
    rw [hB]
    exact List.filter_eq_self.mpr (fun r _ => rfl)
  have hD : unreferencedFiles S u rs1 = [] := by
    unfold unreferencedFiles
    refine List.filter_eq_nil_iff.mpr (fun f hfm => ?_)
    intro hcond
    simp only [Bool.and_eq_true, Bool.not_eq_true'] at hcond
    obtain ⟨⟨hc1, hc2⟩, hc3⟩ := hcond
    -- in the first run the file was either referenced or re-admitted,
    -- so some record of `rs1` carries its post_id, contradicting hc3
    have hsome : ∃ r ∈ rs1, r.post_id = filePostId f := by
      cases hb : (removeMissing S rs).any
          (fun r => r.post_id = filePostId f) with
      | true =>
        obtain ⟨r, hr, hrid⟩ := List.any_eq_true.mp hb
        exact ⟨r, hrs1 ▸ List.mem_append_left _ hr,
          of_decide_eq_true hrid⟩
      | false =>
        have hfin : f ∈ unreferencedFiles S u (removeMissing S rs) := by
          unfold unreferencedFiles
          refine List.mem_filter.mpr ⟨hfm, ?_⟩
          simp [hc1, hc2, hb]
        obtain ⟨r, hr, hmk⟩ := placeholdersFor_covers hph f hfin
        exact ⟨r, hrs1 ▸ List.mem_append_right _ hr,
          (mkPlaceholder_fields hmk).1⟩
    obtain ⟨r, hr, hrid⟩ := hsome
    have : rs1.any (fun r => r.post_id = filePostId f) = true :=
      List.any_eq_true.mpr ⟨r, hr, by simp [hrid]⟩
    rw [this] at hc3
    exact Bool.true_eq_false.mp hc3
  by_cases hrs1ne : rs1 = []
  · subst hrs1ne
    exact ⟨rfl, fun h => absurd rfl h⟩
  · have hempty1 : rs1.isEmpty = false := by
      cases rs1 with
      | nil => exact absurd rfl hrs1ne
      | cons a l => rfl
    have hrun2 : verify_metadata_integrity S u rs1 now' =
        some (rs1, false) := by
      unfold verify_metadata_integrity
      rw [hempty1]
      simp only [Bool.false_eq_true, if_false, hC, hD, hB,
        placeholdersFor]
      simp
    refine ⟨?_, fun _ => hrun2⟩
    unfold auditWrote
    rw [hrun2]

/-- Witness for C8 amended: auditing `[recY]` twice against a storage
with no `post__…album`-named flat object writes nothing the second
time. -/
theorem c8_audit_idempotent_witness :
    auditWrote ["instagram/alice/media/post__Y__post.jpg"] "alice"
        [recY] 1 = false ∧
      ([recY] ≠ [] →
        verify_metadata_integrity
          ["instagram/alice/media/post__Y__post.jpg"] "alice" [recY] 1 =
          some ([recY], false)) :=
  c8_audit_idempotent ["instagram/alice/media/post__Y__post.jpg"] "alice"
    [recY] [recY] 0 1 false
    (fun f hf hpost => by
      have : f = "instagram/alice/media/post__Y__post.jpg" :=
        List.mem_singleton.mp (List.mem_filter.mp hf).1
      subst this
      decide)
    (by rfl)

end ShopAssist
